import Mathlib

/-
  Verification of the permetix repository (Rust license-client library and
  stress-test harness) against its natural-language specification.

  The development shallowly embeds the two Rust source files:
    * src/clients/rust/src/lib.rs   (LicenseClient, LicenseHandle, signing)
    * src/stress-test/src/main.rs   (load harness: workers, semaphore,
                                     ramp-up, statistics)
  Machine integers are modelled as Nat with explicit reduction modulo 2^32
  where the source uses wrapping 32-bit arithmetic (inside SHA-256).
  HTTP responses are modelled as a status code plus body; JSON decoding of a
  response body is modelled by an `Option` parse result supplied alongside
  the raw body, mirroring the two-step `response.json::<T>()` call.
-/

namespace Permetix

/-! ## HTTP model

`reqwest::StatusCode::is_success` holds exactly for codes 200..=299. -/

def is_success (status : Nat) : Bool :=
  200 ≤ status && status < 300

/-- One HTTP header (name, value) as attached by `RequestBuilder::header`. -/
structure Header where
  name : String
  value : String
deriving DecidableEq, Repr

inductive HttpMethod where
  | post
  | get
deriving DecidableEq, Repr

/-- Structural model of the JSON bodies the two binaries serialize:
`BorrowRequest {tool, user}`, `ReturnRequest {id}`, or no body (GET). -/
inductive RequestBody where
  | borrowBody (tool user : String)
  | returnBody (id : String)
  | noBody
deriving DecidableEq, Repr

/-- An outgoing HTTP request as assembled by the client code. -/
structure HttpRequest where
  method : HttpMethod
  url : String
  body : RequestBody
  headers : List Header
deriving DecidableEq, Repr

/-! ## SHA-256 and HMAC-SHA256

Embedding of the `sha2`/`hmac` crates as used by
`LicenseClient::generate_signature`.  Bytes are Nat values < 256, 32-bit
words are Nat values reduced modulo 2^32 by `w32`. -/

def w32 (n : Nat) : Nat := n % 4294967296

/-- Right rotation of a 32-bit word. -/
def rotr32 (n x : Nat) : Nat := (x >>> n) ||| w32 (x <<< (32 - n))

/-- The 64 SHA-256 round constants (FIPS 180-4, written in decimal). -/
def SHA_K : Array Nat := #[
  1116352408, 1899447441, 3049323471, 3921009573,
  961987163, 1508970993, 2453635748, 2870763221,
  3624381080, 310598401, 607225278, 1426881987,
  1925078388, 2162078206, 2614888103, 3248222580,
  3835390401, 4022224774, 264347078, 604807628,
  770255983, 1249150122, 1555081692, 1996064986,
  2554220882, 2821834349, 2952996808, 3210313671,
  3336571891, 3584528711, 113926993, 338241895,
  666307205, 773529912, 1294757372, 1396182291,
  1695183700, 1986661051, 2177026350, 2456956037,
  2730485921, 2820302411, 3259730800, 3345764771,
  3516065817, 3600352804, 4094571909, 275423344,
  430227734, 506948616, 659060556, 883997877,
  958139571, 1322822218, 1537002063, 1747873779,
  1955562222, 2024104815, 2227730452, 2361852424,
  2428436474, 2756734187, 3204031479, 3329325298]

/-- Big-endian byte serialization of `v` into `n` bytes. -/
def bytesBE (n v : Nat) : List Nat :=
  (List.range n).map (fun i => (v >>> (8 * (n - 1 - i))) % 256)

/-- SHA-256 padding: 0x80, zeros, then the 64-bit big-endian bit length. -/
def sha256_pad (msg : List Nat) : List Nat :=
  let padZeros := (64 - (msg.length + 9) % 64) % 64
  msg ++ [128] ++ List.replicate padZeros 0 ++ bytesBE 8 (msg.length * 8)

/-- Group four big-endian bytes at a time into 32-bit words. -/
def toWords : List Nat → List Nat
  | b0 :: b1 :: b2 :: b3 :: rest =>
      ((b0 <<< 24) + (b1 <<< 16) + (b2 <<< 8) + b3) :: toWords rest
  | _ => []

/-- Extend the 16 block words to the 64-entry message schedule. -/
def sha_schedule (ws : List Nat) : Array Nat :=
  (List.range 48).foldl (fun w _ =>
    let t := w.size
    let w15 := w[t - 15]!
    let w2 := w[t - 2]!
    let s0 := (rotr32 7 w15) ^^^ (rotr32 18 w15) ^^^ (w15 >>> 3)
    let s1 := (rotr32 17 w2) ^^^ (rotr32 19 w2) ^^^ (w2 >>> 10)
    w.push (w32 (w[t - 16]! + s0 + w[t - 7]! + s1))) ws.toArray

/-- The eight 32-bit hash-state words. -/
structure Sha256State where
  a : Nat
  b : Nat
  c : Nat
  d : Nat
  e : Nat
  f : Nat
  g : Nat
  h : Nat
deriving DecidableEq, Repr

def sha256_init : Sha256State :=
  ⟨1779033703, 3144134277, 1013904242, 2773480762,
   1359893119, 2600822924, 528734635, 1541459225⟩

/-- One SHA-256 compression round. -/
def sha_round (w : Array Nat) (st : Sha256State) (t : Nat) : Sha256State :=
  let S1 := (rotr32 6 st.e) ^^^ (rotr32 11 st.e) ^^^ (rotr32 25 st.e)
  let ch := (st.e &&& st.f) ^^^ ((st.e ^^^ 4294967295) &&& st.g)
  let temp1 := w32 (st.h + S1 + ch + SHA_K[t]! + w[t]!)
  let S0 := (rotr32 2 st.a) ^^^ (rotr32 13 st.a) ^^^ (rotr32 22 st.a)
  let maj := (st.a &&& st.b) ^^^ (st.a &&& st.c) ^^^ (st.b &&& st.c)
  let temp2 := w32 (S0 + maj)
  ⟨w32 (temp1 + temp2), st.a, st.b, st.c, w32 (st.d + temp1), st.e, st.f, st.g⟩

/-- Compress one 64-byte block into the running hash state. -/
def sha_compress (st : Sha256State) (block : List Nat) : Sha256State :=
  let w := sha_schedule (toWords block)
  let r := (List.range 64).foldl (sha_round w) st
  ⟨w32 (st.a + r.a), w32 (st.b + r.b), w32 (st.c + r.c), w32 (st.d + r.d),
   w32 (st.e + r.e), w32 (st.f + r.f), w32 (st.g + r.g), w32 (st.h + r.h)⟩

/-- Split a byte list into 64-byte chunks. -/
def chunks64 (l : List Nat) : List (List Nat) :=
  if h : l = [] then []
  else (l.take 64) :: chunks64 (l.drop 64)
termination_by l.length
decreasing_by
  simp only [List.length_drop]
  have : 0 < l.length := List.length_pos.mpr h
  omega

/-- SHA-256 of a byte list, as a 32-byte list. -/
def sha256 (msg : List Nat) : List Nat :=
  let final := (chunks64 (sha256_pad msg)).foldl sha_compress sha256_init
  bytesBE 4 final.a ++ bytesBE 4 final.b ++ bytesBE 4 final.c ++
  bytesBE 4 final.d ++ bytesBE 4 final.e ++ bytesBE 4 final.f ++
  bytesBE 4 final.g ++ bytesBE 4 final.h

/-- HMAC-SHA256 (`Hmac<Sha256>` with a key of any size). -/
def hmac_sha256 (key msg : List Nat) : List Nat :=
  let k0 := if 64 < key.length then sha256 key else key
  let k := k0 ++ List.replicate (64 - k0.length) 0
  let ipad := k.map (fun b => b ^^^ 54)
  let opad := k.map (fun b => b ^^^ 92)
  sha256 (opad ++ sha256 (ipad ++ msg))

/-- Lowercase hex digit. -/
def hexChar (n : Nat) : Char :=
  if n < 10 then Char.ofNat (48 + n) else Char.ofNat (87 + n)

/-- `hex::encode`: lowercase hex of a byte list. -/
def hex_encode (bytes : List Nat) : String :=
  String.mk (bytes.foldr (fun b acc => hexChar (b / 16) :: hexChar (b % 16) :: acc) [])

/-- UTF-8 bytes of a string (`str::as_bytes`). -/
def strBytes (s : String) : List Nat :=
  s.toUTF8.toList.map (fun b => b.toNat)

/-! ## Client library (src/clients/rust/src/lib.rs) -/

/-- `enum LicenseError` from lib.rs.  `RequestFailed` wraps a transport or
serde error coming from `reqwest::Error`; its payload is modelled as the
error message string. -/
inductive LicenseError where
  | RequestFailed (msg : String)
  | NoLicensesAvailable (tool : String)
  | HttpError (status : Nat) (body : String)
  | InvalidResponse (msg : String)
deriving DecidableEq, Repr

/-- `struct LicenseHandle` from lib.rs.  The `client: Arc<reqwest::Client>`
field carries no observable data and is omitted; `base_url` is the
transport binding the handle keeps. -/
structure LicenseHandle where
  id : String
  tool : String
  user : String
  base_url : String
  returned : Bool
deriving DecidableEq, Repr

/-- `struct LicenseClient` from lib.rs (the shared `reqwest::Client` value
is omitted: only its configuration, which is empty, is observable). -/
structure LicenseClient where
  base_url : String
  enable_security : Bool
deriving DecidableEq, Repr

/-- Vendor secret constant embedded in lib.rs. -/
def VENDOR_SECRET : String := "techvendor_secret_ecu_2025_demo_xyz789abc123def456"

/-- Vendor id constant embedded in lib.rs. -/
def VENDOR_ID : String := "techvendor"

/-- `LicenseClient::with_security`. -/
def with_security (base_url : String) (enable_security : Bool) : LicenseClient :=
  ⟨base_url, enable_security⟩

/-- `LicenseClient::new` — security enabled by default. -/
def LicenseClient.mkNew (base_url : String) : LicenseClient :=
  with_security base_url true

/-- `LicenseClient::generate_signature`: hex-encoded HMAC-SHA256, keyed by
`VENDOR_SECRET`, of the payload `format!("\x7b\x7d|\x7b\x7d|\x7b\x7d", tool, user, timestamp)`.
The `&self` receiver is kept as an explicit argument; the Rust body never
reads it. -/
def generate_signature (_c : LicenseClient) (tool user timestamp : String) : String :=
  let payload := tool ++ "|" ++ user ++ "|" ++ timestamp
  hex_encode (hmac_sha256 (strBytes VENDOR_SECRET) (strBytes payload))

/-- The request assembled by `LicenseClient::borrow` before sending:
POST `{base_url}/licenses/borrow` with JSON body `{tool, user}` and, when
`enable_security` is set, the three authentication headers computed at call
time from the given timestamp. -/
def borrow_request (c : LicenseClient) (tool user timestamp : String) : HttpRequest :=
  { method := .post
    url := c.base_url ++ "/licenses/borrow"
    body := .borrowBody tool user
    headers :=
      if c.enable_security then
        [⟨"X-Signature", generate_signature c tool user timestamp⟩,
         ⟨"X-Timestamp", timestamp⟩,
         ⟨"X-Vendor-ID", VENDOR_ID⟩]
      else [] }

/-- Response classification in `LicenseClient::borrow`, given the HTTP
status, the response body text, and the result of JSON-decoding the body
as `BorrowResponse {id}` (`none` when decoding fails, in which case the
`reqwest::Error` from `.json()` surfaces as `RequestFailed`). -/
def borrow_classify (c : LicenseClient) (tool user : String)
    (status : Nat) (body : String) (parsedId : Option String) :
    Except LicenseError LicenseHandle :=
  if status = 409 then
    .error (.NoLicensesAvailable tool)
  else if ¬ is_success status then
    .error (.HttpError status body)
  else
    match parsedId with
    | none => .error (.RequestFailed "error decoding response body")
    | some id =>
        .ok { id := id, tool := tool, user := user,
              base_url := c.base_url, returned := false }

/-- The request assembled by `LicenseHandle::return_impl`: POST
`{base_url}/licenses/return` with JSON body `{id}` and no headers. -/
def return_request (h : LicenseHandle) : HttpRequest :=
  { method := .post
    url := h.base_url ++ "/licenses/return"
    body := .returnBody h.id
    headers := [] }

/-- Response classification in `LicenseHandle::return_impl`: any non-2xx
status is a generic `HttpError`; a 2xx status is success. -/
def return_impl (_h : LicenseHandle) (status : Nat) (body : String) :
    Except LicenseError Unit :=
  if ¬ is_success status then
    .error (.HttpError status body)
  else
    .ok ()

/-- `LicenseHandle::return_license(mut self)`: runs `return_impl`; on
success sets `returned := true`.  The Rust method consumes `self`; the
model returns the final value of the moved-in handle. -/
def return_license (h : LicenseHandle) (status : Nat) (body : String) :
    Except LicenseError LicenseHandle :=
  match return_impl h status body with
  | .error e => .error e
  | .ok _ => .ok { h with returned := true }

/-- Observable effects a client operation can perform (used to model the
`Drop` impl: a stderr diagnostic versus an HTTP call). -/
inductive Effect where
  | diagnostic (msg : String)
  | networkCall (req : HttpRequest)
deriving DecidableEq, Repr

/-- `impl Drop for LicenseHandle`: if `returned` is still false, print a
warning naming the lease id to stderr; no network call is possible from
the non-async drop path.  The result lists the effects performed. -/
def drop_handle (h : LicenseHandle) : List Effect :=
  if ¬ h.returned then
    [.diagnostic ("Warning: License " ++ h.id ++ " dropped without explicit return")]
  else []

/-- Unreserved bytes left intact by `urlencoding::encode`
(ASCII alphanumerics and `-`, `.`, `_`, `~`). -/
def isUnreservedByte (b : Nat) : Bool :=
  (65 ≤ b && b ≤ 90) || (97 ≤ b && b ≤ 122) || (48 ≤ b && b ≤ 57) ||
  b = 45 || b = 46 || b = 95 || b = 126

/-- Uppercase hex digit (percent escapes use uppercase). -/
def hexCharUpper (n : Nat) : Char :=
  if n < 10 then Char.ofNat (48 + n) else Char.ofNat (55 + n)

/-- `urlencoding::encode` over the UTF-8 bytes of the string. -/
def percent_encode (s : String) : String :=
  String.join ((strBytes s).map (fun b =>
    if isUnreservedByte b then String.singleton (Char.ofNat b)
    else String.mk [Char.ofNat 37, hexCharUpper (b / 16), hexCharUpper (b % 16)]))

/-- The request assembled by `LicenseClient::get_status`: GET
`{base_url}/licenses/{encoded_tool}/status`, no body, no headers. -/
def get_status_request (c : LicenseClient) (tool : String) : HttpRequest :=
  { method := .get
    url := c.base_url ++ "/licenses/" ++ percent_encode tool ++ "/status"
    body := .noBody
    headers := [] }

/-- The request assembled by `LicenseClient::get_all_statuses`: GET
`{base_url}/licenses/status`, no body, no headers. -/
def get_all_statuses_request (c : LicenseClient) : HttpRequest :=
  { method := .get
    url := c.base_url ++ "/licenses/status"
    body := .noBody
    headers := [] }

/-! ## Handle ownership lifecycle

`return_license` takes `mut self` by value and the `Drop` impl consumes
the handle, so after either event the caller no longer owns the handle and
the Rust compiler rejects any further use as a caller error.  The
lifecycle of one handle is modelled as a labelled transition system whose
realizable traces are exactly the event sequences a well-typed caller can
produce. -/

inductive HandleEvent where
  | returnAttempt (status : Nat)
  | dropHandle
deriving DecidableEq, Repr

/-- Ownership state of one handle: either the caller still owns the live
handle value, or it has been moved (into `return_license` or into drop). -/
inductive HandleOwnership where
  | live (h : LicenseHandle)
  | consumed
deriving DecidableEq, Repr

/-- One lifecycle event.  Both operations available on a handle consume
it: `return_license(mut self)` and `Drop::drop`. -/
inductive handleStep : HandleOwnership → HandleEvent → HandleOwnership → Prop where
  | ret (h : LicenseHandle) (status : Nat) :
      handleStep (.live h) (.returnAttempt status) .consumed
  | drp (h : LicenseHandle) :
      handleStep (.live h) .dropHandle .consumed

/-- Event traces realizable from an ownership state. -/
inductive handleTrace : HandleOwnership → List HandleEvent → HandleOwnership → Prop where
  | nil (s : HandleOwnership) : handleTrace s [] s
  | cons {s s1 s2 : HandleOwnership} {e : HandleEvent} {es : List HandleEvent} :
      handleStep s e s1 → handleTrace s1 es s2 → handleTrace s (e :: es) s2

/-- Predicate picking out return attempts in a trace. -/
def isReturnAttempt : HandleEvent → Bool
  | .returnAttempt _ => true
  | .dropHandle => false

/-! ## Load harness (src/stress-test/src/main.rs) -/

/-- `struct TestStats`; `total_duration` is kept in milliseconds. -/
structure TestStats where
  successful_borrows : Nat
  failed_borrows : Nat
  successful_returns : Nat
  failed_returns : Nat
  total_duration : Nat
deriving DecidableEq, Repr

/-- `TestStats::new()`. -/
def TestStats.new : TestStats := ⟨0, 0, 0, 0, 0⟩

/-- `struct BorrowResponse` of the stress tester. -/
structure BorrowResponse where
  id : String
  tool : String
  user : String
  borrowed_at : String
deriving DecidableEq, Repr

/-- `borrow_license` of the stress tester, given the response status and
body and the result of JSON-decoding the body as `BorrowResponse`
(`none` when decoding fails).  Note: unlike the client library, the
harness maps every non-2xx status — 409 included — to an error string. -/
def st_borrow_license (status : Nat) (body : String)
    (parsed : Option BorrowResponse) : Except String BorrowResponse :=
  if is_success status then
    match parsed with
    | some r => .ok r
    | none => .error "Parse failed"
  else
    .error ("HTTP " ++ toString status ++ ": " ++ body)

/-- `return_license` of the stress tester. -/
def st_return_license (status : Nat) (body : String) : Except String Unit :=
  if is_success status then
    .ok ()
  else
    .error ("HTTP " ++ toString status ++ ": " ++ body)

/-- Server behaviour observed by one worker operation: the response to the
borrow request and (when a return is issued) the response to the return
request. -/
structure OpEnv where
  borrowStatus : Nat
  borrowBody : String
  borrowParsed : Option BorrowResponse
  returnStatus : Nat
  returnBody : String
deriving Repr

/-- One iteration of the `run_worker` loop, restricted to its effect on
the counters: one borrow attempt; on success, in `full-cycle` mode, a
hold followed by one return attempt.  Sleeps, tool selection and progress
reporting do not touch the counters and are omitted. -/
def run_worker_step (mode : String) (env : Nat → OpEnv)
    (stats : TestStats) (i : Nat) : TestStats :=
  let e := env i
  match st_borrow_license e.borrowStatus e.borrowBody e.borrowParsed with
  | .ok _ =>
      let stats1 := { stats with successful_borrows := stats.successful_borrows + 1 }
      if mode = "full-cycle" then
        match st_return_license e.returnStatus e.returnBody with
        | .ok _ => { stats1 with successful_returns := stats1.successful_returns + 1 }
        | .error _ => { stats1 with failed_returns := stats1.failed_returns + 1 }
      else stats1
  | .error _ => { stats with failed_borrows := stats.failed_borrows + 1 }

/-- The statistics-relevant body of `run_worker`: the per-operation loop
folded over the operation indices. -/
def run_worker_stats (mode : String) (env : Nat → OpEnv) (operations : Nat) :
    TestStats :=
  (List.range operations).foldl (run_worker_step mode env) TestStats.new

/-- The per-worker merge performed in `main`: the four counters are added;
`total_duration` of the accumulator is never written. -/
def merge_stats (acc s : TestStats) : TestStats :=
  { acc with
    successful_borrows := acc.successful_borrows + s.successful_borrows
    failed_borrows := acc.failed_borrows + s.failed_borrows
    successful_returns := acc.successful_returns + s.successful_returns
    failed_returns := acc.failed_returns + s.failed_returns }

/-- `main`'s aggregation loop over the joined worker results. -/
def aggregate_stats (l : List TestStats) : TestStats :=
  l.foldl merge_stats TestStats.new

/-! ### Capacity semaphore

`main` creates `Semaphore::new(args.workers)`; each worker does
`semaphore.acquire()` at the top of its per-operation loop and drops the
permit at the bottom of the loop body, i.e. after the whole
borrow/hold/return cycle (successful or not). -/

/-- Number of permits of the harness semaphore, from
`Semaphore::new(args.workers)`. -/
def semaphore_permits (workers : Nat) : Nat := workers

/-- Phase of one worker: `idle rem` — not holding a permit, `rem`
operations still to run; `inCycle rem` — holding a permit, inside the
cycle of its next operation. -/
inductive WorkerPhase where
  | idle (remaining : Nat)
  | inCycle (remaining : Nat)
deriving DecidableEq, Repr

def isInCycle : WorkerPhase → Bool
  | .inCycle _ => true
  | .idle _ => false

/-- Global harness state: the phase of every worker plus the number of
semaphore permits currently available. -/
structure HarnessState where
  phases : List WorkerPhase
  available : Nat
deriving DecidableEq, Repr

/-- Initial state: every worker idle with the full operation count, all
permits available. -/
def init_harness (workers ops : Nat) : HarnessState :=
  ⟨List.replicate workers (.idle ops), semaphore_permits workers⟩

/-- Number of workers currently inside a borrow/hold/return cycle. -/
def inflight (s : HarnessState) : Nat := s.phases.countP isInCycle

/-- Interleaving semantics of the worker loops around the semaphore:
`acquire` admits an idle worker with work left when a permit is
available (the borrow call is only issued after this step); `release`
completes a worker's cycle — including failed cycles — giving the permit
back and consuming one operation. -/
inductive HarnessStep : HarnessState → HarnessState → Prop where
  | acquire (s : HarnessState) (i rem : Nat) (hi : i < s.phases.length)
      (hph : s.phases.get ⟨i, hi⟩ = .idle (rem + 1)) (hav : 0 < s.available) :
      HarnessStep s ⟨s.phases.set i (.inCycle (rem + 1)), s.available - 1⟩
  | release (s : HarnessState) (i rem : Nat) (hi : i < s.phases.length)
      (hph : s.phases.get ⟨i, hi⟩ = .inCycle rem) :
      HarnessStep s ⟨s.phases.set i (.idle (rem - 1)), s.available + 1⟩

/-- States reachable from the initial harness state. -/
def HarnessReachable (workers ops : Nat) (s : HarnessState) : Prop :=
  Relation.ReflTransGen HarnessStep (init_harness workers ops) s

/-! ### Ramp-up schedule

In `main`, the spawn loop runs on the main task; at iteration `worker_id`
it first sleeps `delay * worker_id` milliseconds (when `ramp_up > 0`,
with `delay = ramp_up * 1000 / workers`) and then spawns the worker, so
the sleeps accumulate across iterations. -/

/-- `delay` computed in `main` (milliseconds, integer division). -/
def ramp_delay (ramp_up workers : Nat) : Nat := ramp_up * 1000 / workers

/-- Start time (ms after the spawn loop begins, ignoring non-sleep work)
of worker `k`: the sum of the sleeps of iterations `0..=k`. -/
def worker_start_ms (ramp_up workers k : Nat) : Nat :=
  if 0 < ramp_up then
    ((List.range (k + 1)).map (fun j => ramp_delay ramp_up workers * j)).sum
  else 0

/-- A reachable harness state used to instantiate the capacity theorem:
two workers with one operation each, after worker 0 acquired a permit. -/
def witnessState : HarnessState :=
  ⟨(init_harness 2 1).phases.set 0 (.inCycle 1), (init_harness 2 1).available - 1⟩

/-- A concrete handle used to instantiate theorems. -/
def sampleHandle : LicenseHandle :=
  ⟨"lease-1", "cad_tool", "alice", "http://localhost:8000", false⟩

/-- A concrete client used to instantiate theorems. -/
def sampleClient : LicenseClient := ⟨"http://localhost:8000", true⟩

/-- Two concrete per-worker results used to instantiate theorems. -/
def sampleStatsA : TestStats := ⟨1, 2, 3, 4, 5⟩

def sampleStatsB : TestStats := ⟨10, 20, 30, 40, 50⟩

/-! ## Theorems -/

/-- C3: `LicenseClient::borrow` classifies every response as follows — an
HTTP 409 yields the distinct `NoLicensesAvailable` outcome carrying the
tool name; any other non-2xx status yields `HttpError` carrying the
status code and response body; a 2xx response whose body decodes to a
lease id yields a handle whose `id` is that lease id and whose
`returned` flag is `false`. -/
theorem borrow_classification (c : LicenseClient) (tool user body : String)
    (parsedId : Option String) :
    borrow_classify c tool user 409 body parsedId
      = .error (.NoLicensesAvailable tool) ∧
    (∀ status, is_success status = false → status ≠ 409 →
      borrow_classify c tool user status body parsedId
        = .error (.HttpError status body)) ∧
    (∀ status id, is_success status = true → parsedId = some id →
      borrow_classify c tool user status body parsedId
        = .ok { id := id, tool := tool, user := user,
                base_url := c.base_url, returned := false }) := by
  refine ⟨by simp [borrow_classify], ?_, ?_⟩
  · intro status hns h409
    simp [borrow_classify, h409, hns]
  · intro status id hs hp
    have h409 : status ≠ 409 := by
      intro hEq
      rw [hEq] at hs
      simp [is_success] at hs
    simp [borrow_classify, h409, hs, hp]

/-- Witness for C3 at concrete statuses 409, 500 and 200. -/
theorem borrow_classification_witness :
    borrow_classify sampleClient "cad_tool" "alice" 409 "b" (some "L1")
      = .error (.NoLicensesAvailable "cad_tool") ∧
    borrow_classify sampleClient "cad_tool" "alice" 500 "b" (some "L1")
      = .error (.HttpError 500 "b") ∧
    borrow_classify sampleClient "cad_tool" "alice" 200 "b" (some "L1")
      = .ok { id := "L1", tool := "cad_tool", user := "alice",
              base_url := sampleClient.base_url, returned := false } := by
  obtain ⟨h1, h2, h3⟩ :=
    borrow_classification sampleClient "cad_tool" "alice" "b" (some "L1")
  exact ⟨h1, h2 500 (by decide) (by decide), h3 200 "L1" (by decide) rfl⟩

/-- C4 counterexample: on HTTP 409 the return path produces the generic
`HttpError 409` — not the `NoLicensesAvailable` outcome that borrow
produces for the same status — so return does not classify statuses the
same way borrow does. -/
theorem return_409_generic_error :
    return_impl sampleHandle 409 "conflict"
      = .error (.HttpError 409 "conflict") ∧
    borrow_classify sampleClient "cad_tool" "alice" 409 "conflict" none
      = .error (.NoLicensesAvailable "cad_tool") ∧
    return_impl sampleHandle 409 "conflict"
      ≠ .error (.NoLicensesAvailable "cad_tool") := by
  refine ⟨rfl, rfl, ?_⟩
  intro hEq
  rw [show return_impl sampleHandle 409 "conflict"
        = Except.error (LicenseError.HttpError 409 "conflict") from rfl] at hEq
  injection hEq with hInner
  injection hInner

/-- C4 amended: `LicenseHandle::return_impl` POSTs the lease id to
`/licenses/return` with no headers; every non-2xx status — including
409, which is not special-cased — yields a generic `HttpError` carrying
status and body, and a 2xx status yields success. -/
theorem return_classification (h : LicenseHandle) (status : Nat) (body : String) :
    return_request h
      = ⟨.post, h.base_url ++ "/licenses/return", .returnBody h.id, []⟩ ∧
    (is_success status = false →
      return_impl h status body = .error (.HttpError status body)) ∧
    (is_success status = true → return_impl h status body = .ok ()) := by
  refine ⟨rfl, ?_, ?_⟩
  · intro hns
    simp [return_impl, hns]
  · intro hs
    simp [return_impl, hs]

/-- Witness for C4 (amended) at statuses 500 and 200. -/
theorem return_classification_witness :
    return_impl sampleHandle 500 "oops" = .error (.HttpError 500 "oops") ∧
    return_impl sampleHandle 200 "ok" = .ok () := by
  exact ⟨(return_classification sampleHandle 500 "oops").2.1 (by decide),
         (return_classification sampleHandle 200 "ok").2.2 (by decide)⟩

/-- C6: dropping a handle whose `returned` flag is still false performs
exactly one effect — a diagnostic naming the unreturned lease id — and in
particular no network call; dropping a handle whose flag is true performs
no effect at all. -/
theorem drop_handle_effects (h : LicenseHandle) :
    (h.returned = false →
      drop_handle h =
        [.diagnostic ("Warning: License " ++ h.id ++ " dropped without explicit return")] ∧
      ∀ req, Effect.networkCall req ∉ drop_handle h) ∧
    (h.returned = true → drop_handle h = []) := by
  constructor
  · intro hf
    constructor
    · simp [drop_handle, hf]
    · intro req hmem
      simp [drop_handle, hf] at hmem
  · intro ht
    simp [drop_handle, ht]

/-- Witness for C6 at a live handle and at a returned handle. -/
theorem drop_handle_effects_witness :
    drop_handle sampleHandle =
      [.diagnostic ("Warning: License " ++ sampleHandle.id ++ " dropped without explicit return")] ∧
    drop_handle { sampleHandle with returned := true } = [] := by
  exact ⟨((drop_handle_effects sampleHandle).1 rfl).1,
         (drop_handle_effects { sampleHandle with returned := true }).2 rfl⟩

/-- C7: the request signature is the hex-encoded HMAC-SHA256, keyed by the
shared vendor secret, of the pipe-joined payload `tool|user|timestamp`;
the signing function is a pure function of tool, user and timestamp —
equal inputs produce equal signatures even across distinct client values,
and it has no effects (it is a plain function). -/
theorem signature_formula (c : LicenseClient) (tool user timestamp : String) :
    generate_signature c tool user timestamp
      = hex_encode (hmac_sha256 (strBytes VENDOR_SECRET)
          (strBytes (tool ++ "|" ++ user ++ "|" ++ timestamp))) ∧
    (∀ (c2 : LicenseClient) (t2 u2 ts2 : String),
      tool = t2 → user = u2 → timestamp = ts2 →
      generate_signature c tool user timestamp
        = generate_signature c2 t2 u2 ts2) := by
  refine ⟨rfl, ?_⟩
  intro c2 t2 u2 ts2 h1 h2 h3
  subst h1
  subst h2
  subst h3
  rfl

/-- Witness for C7: two calls with equal tool/user/timestamp but distinct
client values produce the same signature. -/
theorem signature_formula_witness :
    generate_signature sampleClient "cad_tool" "alice" "1700000000"
      = generate_signature ⟨"http://other:9000", false⟩ "cad_tool" "alice" "1700000000" := by
  exact (signature_formula sampleClient "cad_tool" "alice" "1700000000").2
    ⟨"http://other:9000", false⟩ "cad_tool" "alice" "1700000000" rfl rfl rfl

/-- C10: with security enabled, the borrow request carries exactly the
`X-Signature`, `X-Timestamp` and `X-Vendor-ID` headers, while the
return, get_status and get_all_statuses requests carry no headers at all,
whatever the security setting. -/
theorem only_borrow_carries_signature (c : LicenseClient)
    (tool user timestamp : String) (h : LicenseHandle) :
    (c.enable_security = true →
      (borrow_request c tool user timestamp).headers =
        [⟨"X-Signature", generate_signature c tool user timestamp⟩,
         ⟨"X-Timestamp", timestamp⟩,
         ⟨"X-Vendor-ID", VENDOR_ID⟩]) ∧
    (return_request h).headers = [] ∧
    (get_status_request c tool).headers = [] ∧
    (get_all_statuses_request c).headers = [] := by
  refine ⟨?_, rfl, rfl, rfl⟩
  intro hs
  simp [borrow_request, hs]

/-- Witness for C10 with a concrete security-enabled client. -/
theorem only_borrow_carries_signature_witness :
    (borrow_request sampleClient "cad_tool" "alice" "1700000000").headers =
      [⟨"X-Signature", generate_signature sampleClient "cad_tool" "alice" "1700000000"⟩,
       ⟨"X-Timestamp", "1700000000"⟩,
       ⟨"X-Vendor-ID", VENDOR_ID⟩] ∧
    (return_request sampleHandle).headers = [] ∧
    (get_status_request sampleClient "cad_tool").headers = [] ∧
    (get_all_statuses_request sampleClient).headers = [] := by
  obtain ⟨h1, h2, h3, h4⟩ :=
    only_borrow_carries_signature sampleClient "cad_tool" "alice" "1700000000" sampleHandle
  exact ⟨h1 rfl, h2, h3, h4⟩

/-- From the consumed ownership state no further event is realizable: the
Rust compiler rejects any use of a moved handle. -/
theorem handleTrace_consumed_nil {es : List HandleEvent} {s2 : HandleOwnership}
    (ht : handleTrace .consumed es s2) : es = [] := by
  cases ht with
  | nil => rfl
  | cons hstep _ => cases hstep

/-- C5: a handle is created by borrow with `returned = false`; a
successful explicit return yields the handle value with `returned = true`;
and because `return_license` consumes the handle (and drop does too), no
realizable event trace of one handle contains more than one return
attempt — a program making a second attempt is rejected by the compiler
as a caller error, so a second return can never silently succeed or
no-op. -/
theorem returned_flag_transitions (c : LicenseClient) (tool user : String) :
    (∀ (status : Nat) (body : String) (pid : Option String) (h : LicenseHandle),
      borrow_classify c tool user status body pid = .ok h → h.returned = false) ∧
    (∀ (h : LicenseHandle) (status : Nat) (body : String) (h2 : LicenseHandle),
      return_license h status body = .ok h2 → h2.returned = true) ∧
    (∀ (h : LicenseHandle) (tr : List HandleEvent) (s : HandleOwnership),
      handleTrace (.live h) tr s → tr.countP isReturnAttempt ≤ 1) ∧
    (∀ (e : HandleEvent) (s : HandleOwnership), ¬ handleStep .consumed e s) := by
  refine ⟨?_, ?_, ?_, ?_⟩
  · intro status body pid h hok
    unfold borrow_classify at hok
    split at hok
    · cases hok
    · split at hok
      · cases hok
      · match pid with
        | none => cases hok
        | some id =>
            simp only [Except.ok.injEq] at hok
            subst hok
            rfl
  · intro h status body h2 hok
    unfold return_license at hok
    split at hok
    · cases hok
    · simp only [Except.ok.injEq] at hok
      subst hok
      rfl
  · intro h tr s ht
    cases ht with
    | nil => simp
    | cons hstep htail =>
        have htl : _ = [] := handleTrace_consumed_nil (by cases hstep <;> exact htail)
        subst htl
        cases hstep <;> simp [isReturnAttempt]
  · intro e s hstep
    cases hstep

/-- Witness for C5: a concrete successful return flips the flag to true,
and the concrete one-return trace contains one return attempt. -/
theorem returned_flag_transitions_witness :
    ({ sampleHandle with returned := true } : LicenseHandle).returned = true ∧
    ([HandleEvent.returnAttempt 200].countP isReturnAttempt ≤ 1) := by
  obtain ⟨h1, h2, h3, h4⟩ := returned_flag_transitions sampleClient "cad_tool" "alice"
  refine ⟨h2 sampleHandle 200 "ok" { sampleHandle with returned := true } rfl, ?_⟩
  exact h3 sampleHandle [.returnAttempt 200] .consumed
    (handleTrace.cons (handleStep.ret sampleHandle 200) (handleTrace.nil .consumed))

/-- Closed form of the aggregation fold of `main`: each counter of the
accumulated result is the initial counter plus the sum over the list, and
`total_duration` is never written. -/
theorem aggregate_foldl_closed (l : List TestStats) (a : TestStats) :
    l.foldl merge_stats a =
      ⟨a.successful_borrows + (l.map (fun s => s.successful_borrows)).sum,
       a.failed_borrows + (l.map (fun s => s.failed_borrows)).sum,
       a.successful_returns + (l.map (fun s => s.successful_returns)).sum,
       a.failed_returns + (l.map (fun s => s.failed_returns)).sum,
       a.total_duration⟩ := by
  induction l generalizing a with
  | nil =>
      cases a
      simp
  | cons x xs ih =>
      rw [List.foldl_cons, ih]
      simp [merge_stats, Nat.add_assoc]

/-- C9: the aggregated harness statistics are the field-wise sums of the
per-worker counters, and — the merge being plain summation — any merge
order yields the same aggregate: aggregation is invariant under
permutation of the per-worker results. -/
theorem stats_aggregation (l : List TestStats) :
    (aggregate_stats l).successful_borrows
      = (l.map (fun s => s.successful_borrows)).sum ∧
    (aggregate_stats l).failed_borrows
      = (l.map (fun s => s.failed_borrows)).sum ∧
    (aggregate_stats l).successful_returns
      = (l.map (fun s => s.successful_returns)).sum ∧
    (aggregate_stats l).failed_returns
      = (l.map (fun s => s.failed_returns)).sum ∧
    (∀ l2 : List TestStats, l.Perm l2 → aggregate_stats l = aggregate_stats l2) := by
  refine ⟨?_, ?_, ?_, ?_, ?_⟩
  · rw [aggregate_stats, aggregate_foldl_closed]
    simp [TestStats.new]
  · rw [aggregate_stats, aggregate_foldl_closed]
    simp [TestStats.new]
  · rw [aggregate_stats, aggregate_foldl_closed]
    simp [TestStats.new]
  · rw [aggregate_stats, aggregate_foldl_closed]
    simp [TestStats.new]
  · intro l2 hp
    rw [aggregate_stats, aggregate_stats, aggregate_foldl_closed, aggregate_foldl_closed,
        (hp.map (fun s => s.successful_borrows)).sum_eq,
        (hp.map (fun s => s.failed_borrows)).sum_eq,
        (hp.map (fun s => s.successful_returns)).sum_eq,
        (hp.map (fun s => s.failed_returns)).sum_eq]

/-- Witness for C9: merging two concrete worker results in either order
gives the same aggregate. -/
theorem stats_aggregation_witness :
    aggregate_stats [sampleStatsA, sampleStatsB]
      = aggregate_stats [sampleStatsB, sampleStatsA] := by
  exact (stats_aggregation [sampleStatsA, sampleStatsB]).2.2.2.2
    [sampleStatsB, sampleStatsA]
    (List.Perm.swap sampleStatsB sampleStatsA [])

/-- When every borrow response has status 409, a worker loop only ever
takes the failed-borrow branch: each iteration adds one failed borrow and
touches nothing else. -/
theorem run_worker_fold_all_409 (mode : String) (env : Nat → OpEnv)
    (hb : ∀ i, (env i).borrowStatus = 409) (l : List Nat) (acc : TestStats) :
    l.foldl (run_worker_step mode env) acc
      = { acc with failed_borrows := acc.failed_borrows + l.length } := by
  induction l generalizing acc with
  | nil =>
      cases acc
      simp
  | cons x xs ih =>
      rw [List.foldl_cons]
      have hstep : run_worker_step mode env acc x
          = { acc with failed_borrows := acc.failed_borrows + 1 } := by
        unfold run_worker_step
        simp only [hb x]
        rfl
      rw [hstep, ih]
      simp [Nat.add_assoc, Nat.add_comm 1 xs.length]

/-- C8: if every borrow request of every worker receives HTTP 409, a
full-cycle harness run with 5 workers and 2 operations per worker
aggregates to `successful_borrows = 0`, `failed_borrows = 10`,
`successful_returns = 0`, `failed_returns = 0`: each 409 is counted as a
failed borrow and no return is ever attempted. -/
theorem all_409_run_statistics (envs : Nat → Nat → OpEnv)
    (hb : ∀ w i, (envs w i).borrowStatus = 409) :
    aggregate_stats
        ((List.range 5).map (fun w => run_worker_stats "full-cycle" (envs w) 2))
      = ⟨0, 10, 0, 0, 0⟩ := by
  have hw : ∀ w, run_worker_stats "full-cycle" (envs w) 2 = ⟨0, 2, 0, 0, 0⟩ := by
    intro w
    unfold run_worker_stats
    rw [run_worker_fold_all_409 "full-cycle" (envs w) (hb w)]
    rfl
  simp only [hw]
  rfl

/-- Witness for C8: a concrete environment in which the server answers
every borrow with 409. -/
theorem all_409_run_statistics_witness :
    aggregate_stats
        ((List.range 5).map (fun w =>
          run_worker_stats "full-cycle"
            (fun _ => (⟨409, "no licenses", none, 200, ""⟩ : OpEnv)) 2))
      = ⟨0, 10, 0, 0, 0⟩ := by
  exact all_409_run_statistics
    (fun _ _ => (⟨409, "no licenses", none, 200, ""⟩ : OpEnv))
    (fun _ _ => rfl)

/-- C2 (evaluating the ramp-up schedule the code implements at a failing
input): with `ramp_up = 10` seconds and `workers = 5` the per-step delay
is 2000 ms, but because the spawn loop sleeps `delay * worker_id`
cumulatively, worker 3 starts at 12000 ms — not at `k * R / W = 6000` ms,
and above the claimed window bound `(k + 1) * R / W + ε` even for an
epsilon of a full second. -/
theorem rampup_start_time_quadratic :
    ramp_delay 10 5 = 2000 ∧
    worker_start_ms 10 5 3 = 12000 ∧
    3 * (10 * 1000 / 5) = 6000 ∧
    (3 + 1) * (10 * 1000 / 5) + 1000 < worker_start_ms 10 5 3 := by
  refine ⟨rfl, by decide, rfl, by decide⟩

/-- No worker of the initial state is inside a cycle. -/
theorem countP_replicate_idle (n ops : Nat) :
    (List.replicate n (WorkerPhase.idle ops)).countP isInCycle = 0 := by
  induction n with
  | zero => rfl
  | succ k ih => simp [List.replicate_succ, List.countP_cons, ih, isInCycle]

/-- One harness step preserves the permit-accounting invariant. -/
theorem harness_step_preserves (s1 s2 : HarnessState) (k : Nat)
    (hstep : HarnessStep s1 s2)
    (hinv : inflight s1 + s1.available = k) :
    inflight s2 + s2.available = k := by
  cases hstep with
  | acquire i rem hi hph hav =>
      rw [List.get_eq_getElem] at hph
      have hcount := List.countP_set isInCycle s1.phases i (.inCycle (rem + 1)) hi
      rw [hph] at hcount
      simp [isInCycle] at hcount
      show (s1.phases.set i (.inCycle (rem + 1))).countP isInCycle + (s1.available - 1) = k
      rw [hcount]
      unfold inflight at hinv
      omega
  | release i rem hi hph =>
      rw [List.get_eq_getElem] at hph
      have hcount := List.countP_set isInCycle s1.phases i (.idle (rem - 1)) hi
      rw [hph] at hcount
      simp [isInCycle] at hcount
      have hge : 0 < s1.phases.countP isInCycle := by
        refine List.countP_pos_iff.mpr ⟨s1.phases.get ⟨i, hi⟩, List.get_mem s1.phases i hi, ?_⟩
        rw [List.get_eq_getElem, hph]
        rfl
      show (s1.phases.set i (.idle (rem - 1))).countP isInCycle + (s1.available + 1) = k
      rw [hcount]
      unfold inflight at hinv
      omega

/-- Invariant of the harness interleaving semantics: cycles in flight
plus available permits always equals the semaphore capacity. -/
theorem harness_invariant (workers ops : Nat) (s : HarnessState)
    (hr : HarnessReachable workers ops s) :
    inflight s + s.available = semaphore_permits workers := by
  induction hr with
  | refl =>
      show inflight (init_harness workers ops) + (init_harness workers ops).available
          = semaphore_permits workers
      simp [init_harness, inflight, countP_replicate_idle]
  | tail _ hstep ih =>
      exact harness_step_preserves _ _ _ hstep ih

/-- C1 counterexample: the harness semaphore is created with exactly
`args.workers` permits (`Semaphore::new(args.workers)`), so the
concurrency bound is the worker count itself — it differs between 5 and
10 workers rather than being independent of the worker count, and no
configuration with `W > C` exists. -/
theorem capacity_not_independent_of_workers :
    semaphore_permits 5 = 5 ∧ semaphore_permits 10 = 10 ∧
    semaphore_permits 5 ≠ semaphore_permits 10 := by
  exact ⟨rfl, rfl, by decide⟩

/-- C1 amended: every worker acquires one semaphore permit before issuing
its borrow call and releases it only after the whole cycle (borrow,
optional hold, optional return) completes, including on failure, so in
every reachable harness state the number of concurrently executing
cycles is at most the semaphore capacity — but that capacity is exactly
the worker count `W`, not an independently configurable bound `C < W`. -/
theorem inflight_bounded_by_permits (workers ops : Nat) (s : HarnessState)
    (hr : HarnessReachable workers ops s) :
    inflight s ≤ semaphore_permits workers ∧ semaphore_permits workers = workers := by
  have hinv := harness_invariant workers ops s hr
  exact ⟨by omega, rfl⟩

/-- Witness for C1 (amended): with two workers, the state after worker 0
acquires a permit is reachable and has at most two cycles in flight. -/
theorem inflight_bounded_by_permits_witness :
    inflight witnessState ≤ semaphore_permits 2 ∧ semaphore_permits 2 = 2 := by
  exact inflight_bounded_by_permits 2 1 witnessState
    (Relation.ReflTransGen.single
      (HarnessStep.acquire (init_harness 2 1) 0 0 (by decide) (by decide) (by decide)))

end Permetix
